import Mathlib

/-!
# The Foo controller (`controllers/foo_controller.go`)

A shallow embedding of `FooReconciler.Reconcile` and
`FooReconciler.mapPodsReqToFooReq`.

* Kubernetes objects are records holding the fields the controller reads or
  writes.  `int32` values are integers; the controller only copies and
  compares them, it does no arithmetic on them.
* The API client is a store (two keyed collections) together with a record
  of injected errors, one per call site of `Reconcile`.  Without an injected
  error a call behaves as the store dictates (`Get` of an absent object is
  NotFound, `Create` of a present one is AlreadyExists, `Update` of an absent
  one is NotFound).  A failed `Get` leaves the object it was given as it
  was, so `found` keeps the zero value of line 105.
* `metav1.LabelSelectorAsSelector` and `Selector.String` belong to the
  apimachinery library, which is not part of the sources; they are embedded
  after the library: requirements are validated, sorted by key and printed.
  The order of requirements of equal key, which the library sort does not
  fix, is a parameter `srt`, taken as a function of the list.
  A Go map of labels is the list of its entries.
* A nil pointer dereference is the completion `panicked`.
-/

set_option linter.dupNamespace false

namespace Controllers

/-! ## Errors -/

/-- A Go `error` value returned by the client or by the library. -/
inductive GoError where
  | notFound : GoError
  | alreadyExists : GoError
  | other : String → GoError
deriving DecidableEq, Repr

/-- The test `errors.IsNotFound(err)` on a non-nil error. -/
def IsNotFound : GoError → Bool
  | .notFound => true
  | _ => false

/-- The function `client.IgnoreNotFound(err)` on a non-nil error: nil for NotFound. -/
def IgnoreNotFound (err : GoError) : Option GoError :=
  if IsNotFound err then none else some err

/-! ## Objects -/

/-- The type `types.NamespacedName`. -/
structure NamespacedName where
  Namespace : String
  Name : String
deriving DecidableEq, Repr

/-- The type `metav1.OwnerReference`. -/
structure OwnerReference where
  APIVersion : String
  Kind : String
  Name : String
  UID : String
  BlockOwnerDeletion : Option Bool
  Controller : Option Bool
deriving DecidableEq, Repr

/-- The fields of `metav1.ObjectMeta` the controller touches. -/
structure ObjectMeta where
  Name : String
  Namespace : String
  UID : String
  Labels : List (String × String)
  OwnerReferences : List OwnerReference
deriving DecidableEq, Repr

/-- The type `metav1.LabelSelectorRequirement`. -/
structure LabelSelectorRequirement where
  Key : String
  Operator : String
  Values : List String
deriving DecidableEq, Repr

/-- The type `metav1.LabelSelector`. -/
structure LabelSelector where
  MatchLabels : List (String × String)
  MatchExpressions : List LabelSelectorRequirement
deriving DecidableEq, Repr

/-- The type `corev1.ContainerPort`. -/
structure ContainerPort where
  ContainerPort : Int
  Name : String
deriving DecidableEq, Repr

/-- The type `corev1.ResourceRequirements`; quantities are in milli-units. -/
structure ResourceRequirements where
  Limits : List (String × Int)
  Requests : List (String × Int)
deriving DecidableEq, Repr

/-- The type `corev1.Container`. -/
structure Container where
  Resources : ResourceRequirements
  Image : String
  ImagePullPolicy : String
  Name : String
  Ports : List ContainerPort
deriving DecidableEq, Repr

/-- The type `corev1.PodTemplateSpec`: its labels and its containers. -/
structure PodTemplateSpec where
  Labels : List (String × String)
  Containers : List Container
deriving DecidableEq, Repr

/-- The type `appsv1.DeploymentSpec`; `Replicas` and `Selector` are pointers. -/
structure DeploymentSpec where
  Replicas : Option Int
  Selector : Option LabelSelector
  Template : PodTemplateSpec
deriving DecidableEq, Repr

/-- The type `appsv1.Deployment`. -/
structure Deployment where
  ObjectMeta : ObjectMeta
  Spec : DeploymentSpec
deriving DecidableEq, Repr

/-- Modelled from the spec: the type `tutorialv1.FooSpec` of package `api/v1`, which is not
among the sources: the relationship key (`Name`) matched against the name of a linked
resource, and the desired replica count. -/
structure FooSpec where
  Name : String
  Replicas : Int
deriving DecidableEq, Repr

/-- Modelled from the spec: the type `tutorialv1.FooStatus` of package `api/v1`, which is not
among the sources: the last-observed selector string and replica count. -/
structure FooStatus where
  Selector : String
  Replicas : Int
deriving DecidableEq, Repr

/-- Modelled from the spec: the type `tutorialv1.Foo` of package `api/v1`, which is not among
the sources: identity, specification and status of an owner. -/
structure Foo where
  ObjectMeta : ObjectMeta
  Spec : FooSpec
  Status : FooStatus
deriving DecidableEq, Repr

/-- The type `ctrl.Result`. -/
structure Result where
  Requeue : Bool
  RequeueAfter : Nat
deriving DecidableEq, Repr

/-- The type `reconcile.Request`. -/
structure Request where
  NamespacedName : NamespacedName
deriving DecidableEq, Repr

/-- The store key of a Foo. -/
def Foo.key (f : Foo) : NamespacedName :=
  { Namespace := f.ObjectMeta.Namespace, Name := f.ObjectMeta.Name }

/-- The store key of a Deployment. -/
def Deployment.key (d : Deployment) : NamespacedName :=
  { Namespace := d.ObjectMeta.Namespace, Name := d.ObjectMeta.Name }

/-- The Go zero value `appsv1.Deployment{}` (line 105). -/
def Deployment.zero : Deployment :=
  { ObjectMeta := { Name := "", Namespace := "", UID := "", Labels := [], OwnerReferences := [] },
    Spec := { Replicas := none, Selector := none, Template := { Labels := [], Containers := [] } } }

/-- The Go zero value `ctrl.Result{}`. -/
def Result.zero : Result :=
  { Requeue := false, RequeueAfter := 0 }

/-! ## The store behind the client -/

/-- First object of a collection stored under key `k`. -/
def lookup {α : Type} (key : α → NamespacedName) (k : NamespacedName) : List α → Option α
  | [] => none
  | x :: xs => if key x = k then some x else lookup key k xs

/-- Replace the first object stored under the key of `new` by `new`. -/
def replaceFirst {α : Type} (key : α → NamespacedName) (new : α) : List α → List α
  | [] => []
  | x :: xs => if key x = key new then new :: xs else x :: replaceFirst key new xs

/-- The objects the API server holds. -/
structure Store where
  foos : List Foo
  deployments : List Deployment
deriving DecidableEq, Repr

/-- Errors injected at the six client calls of `Reconcile`, in program order. -/
structure Faults where
  getFoo : Option GoError
  getDeployment : Option GoError
  create : Option GoError
  statusUpdate : Option GoError
  getNewFoo : Option GoError
  update : Option GoError
deriving DecidableEq, Repr

/-- Every store operation succeeds: no error is injected. -/
def Faults.none : Faults :=
  { getFoo := Option.none, getDeployment := Option.none, create := Option.none,
    statusUpdate := Option.none, getNewFoo := Option.none, update := Option.none }

/-- The call `r.Get(ctx, key, &foo)`. -/
def Store.getFoo (st : Store) (fault : Option GoError) (k : NamespacedName) : Except GoError Foo :=
  match fault with
  | some e => .error e
  | Option.none =>
    match lookup Foo.key k st.foos with
    | some f => .ok f
    | Option.none => .error .notFound

/-- The call `r.Get(ctx, key, found)` for a Deployment. -/
def Store.getDeployment (st : Store) (fault : Option GoError) (k : NamespacedName) :
    Except GoError Deployment :=
  match fault with
  | some e => .error e
  | Option.none =>
    match lookup Deployment.key k st.deployments with
    | some d => .ok d
    | Option.none => .error .notFound

/-- The call `r.Create(ctx, dep)`: the error (nil on success) and the store after it. -/
def Store.create (st : Store) (fault : Option GoError) (d : Deployment) : Option GoError × Store :=
  match fault with
  | some e => (some e, st)
  | Option.none =>
    match lookup Deployment.key d.key st.deployments with
    | some _ => (some .alreadyExists, st)
    | Option.none => (Option.none, { st with deployments := st.deployments ++ [d] })

/-- The call `r.Update(ctx, found)`: the error (nil on success) and the store after it. -/
def Store.update (st : Store) (fault : Option GoError) (d : Deployment) : Option GoError × Store :=
  match fault with
  | some e => (some e, st)
  | Option.none =>
    match lookup Deployment.key d.key st.deployments with
    | Option.none => (some .notFound, st)
    | some _ =>
      (Option.none, { st with deployments := replaceFirst Deployment.key d st.deployments })

/-- The call `r.Status().Update(ctx, &foo)`: only the status of the stored object is written. -/
def Store.statusUpdate (st : Store) (fault : Option GoError) (f : Foo) : Option GoError × Store :=
  match fault with
  | some e => (some e, st)
  | Option.none =>
    match lookup Foo.key f.key st.foos with
    | Option.none => (some .notFound, st)
    | some cur =>
      (Option.none,
        { st with foos := replaceFirst Foo.key { cur with Status := f.Status } st.foos })

/-! ## Reconcile -/

/-- A client call issued by `Reconcile`, whether or not it succeeded. -/
inductive Call where
  | getFoo : NamespacedName → Call
  | getDeployment : NamespacedName → Call
  | create : Deployment → Call
  | statusUpdate : Foo → Call
  | update : Deployment → Call
deriving DecidableEq, Repr

/-- How a call of `Reconcile` ends. -/
inductive Completion where
  | returned : Result → Option GoError → Completion
  | panicked : Completion
deriving DecidableEq, Repr

/-- What a call of `Reconcile` leaves behind. -/
structure Outcome where
  completion : Completion
  store : Store
  calls : List Call
deriving DecidableEq, Repr

/-- The Deployment literal built at lines 51-103. -/
def dep (foo : Foo) : Deployment :=
  { ObjectMeta :=
      { Name := "jack",
        Namespace := "tnf",
        UID := "",
        Labels := [("app", "jack")],
        OwnerReferences :=
          [{ APIVersion := "tutorial.my.domain/v1",
             Kind := "Foo",
             Name := "foo-01",
             UID := foo.ObjectMeta.UID,
             BlockOwnerDeletion := some true,
             Controller := some true }] },
    Spec :=
      { Replicas := some 1,
        Selector := some { MatchLabels := [("app", "jack")], MatchExpressions := [] },
        Template :=
          { Labels := [("app", "jack")],
            Containers :=
              [{ Resources := { Limits := [("cpu", 500)], Requests := [("cpu", 250)] },
                 Image := "quay.io/testnetworkfunction/cnf-test-partner:latest",
                 ImagePullPolicy := "IfNotPresent",
                 Name := "jack",
                 Ports := [{ ContainerPort := 8080, Name := "jack" }] }] } } }

/-- The key `types.NamespacedName{Name: "jack", Namespace: "tnf"}` of lines 106-109. -/
def jackKey : NamespacedName :=
  { Namespace := "tnf", Name := "jack" }

/-! ## Label selectors (apimachinery) -/

/-- The operators of `selection.Operator` a `LabelSelector` can give rise to. -/
inductive Operator where
  | Equals : Operator
  | In : Operator
  | NotIn : Operator
  | Exists : Operator
  | DoesNotExist : Operator
deriving DecidableEq, Repr

/-- The type `labels.Requirement`. -/
structure Requirement where
  key : String
  operator : Operator
  strValues : List String
deriving DecidableEq, Repr

/-- The type `labels.Selector`: `labels.Nothing()` or a list of requirements
(`labels.Everything()` is the empty list). -/
inductive Selector where
  | nothing : Selector
  | internal : List Requirement → Selector
deriving DecidableEq, Repr

/-- The character class `[A-Za-z0-9]`. -/
def qnameChar (c : Char) : Bool :=
  c.isAlphanum

/-- The character class `[-A-Za-z0-9_.]`. -/
def qnameExtChar (c : Char) : Bool :=
  c.isAlphanum || c == '-' || c == '_' || c == '.'

/-- The character class `[a-z0-9]`. -/
def dns1123Char (c : Char) : Bool :=
  c.isLower || c.isDigit

/-- The anchored pattern `([A-Za-z0-9][-A-Za-z0-9_.]*)?[A-Za-z0-9]`. -/
def qualifiedNameFmt (cs : List Char) : Bool :=
  match cs, cs.getLast? with
  | c :: _, some l => qnameChar c && qnameChar l && cs.all qnameExtChar
  | _, _ => false

/-- The anchored pattern `[a-z0-9]([-a-z0-9]*[a-z0-9])?` of one DNS label. -/
def dns1123LabelFmt (cs : List Char) : Bool :=
  match cs, cs.getLast? with
  | c :: _, some l => dns1123Char c && dns1123Char l && cs.all (fun x => dns1123Char x || x == '-')
  | _, _ => false

/-- The check `validation.IsDNS1123Subdomain`: true when it reports no error. -/
def IsDNS1123Subdomain (cs : List Char) : Bool :=
  decide (cs.length ≤ 253) && (cs.splitOn '.').all dns1123LabelFmt

/-- The check `validation.IsQualifiedName`: true when it reports no error. -/
def IsQualifiedName (value : String) : Bool :=
  match value.toList.splitOn '/' with
  | [name] => decide (name.length ≤ 63) && qualifiedNameFmt name
  | [pre, name] =>
    !pre.isEmpty && IsDNS1123Subdomain pre && decide (name.length ≤ 63) && qualifiedNameFmt name
  | _ => false

/-- The check `validation.IsValidLabelValue`: true when it reports no error. -/
def IsValidLabelValue (value : String) : Bool :=
  decide (value.toList.length ≤ 63) && (value.toList.isEmpty || qualifiedNameFmt value.toList)

/-- The constructor `labels.NewRequirement`: the key, the number of values allowed by the
operator and every value are validated. -/
def NewRequirement (key : String) (op : Operator) (vals : List String) :
    Except GoError Requirement :=
  let arity : Bool :=
    match op with
    | .In => !vals.isEmpty
    | .NotIn => !vals.isEmpty
    | .Equals => vals.length == 1
    | .Exists => vals.isEmpty
    | .DoesNotExist => vals.isEmpty
  if IsQualifiedName key && arity && vals.all IsValidLabelValue then
    .ok { key := key, operator := op, strValues := vals }
  else .error (.other "invalid label requirement")

/-- Go string comparison `a < b`, on the characters of the two strings. -/
def stringLess : List Char → List Char → Bool
  | _, [] => false
  | [], _ :: _ => true
  | a :: as, b :: bs =>
    if a.toNat < b.toNat then true
    else if b.toNat < a.toNat then false
    else stringLess as bs

/-- Insert a string into a sorted list of strings. -/
def insertString (x : String) : List String → List String
  | [] => [x]
  | y :: ys => if stringLess y.toList x.toList then y :: insertString x ys else x :: y :: ys

/-- The helper `safeSort`: the values in increasing order. -/
def safeSort (vals : List String) : List String :=
  vals.foldr insertString []

/-- Insert a requirement into a list sorted by key, before the first one whose key is
not smaller. -/
def insertByKey (r : Requirement) : List Requirement → List Requirement
  | [] => [r]
  | y :: ys =>
    if stringLess y.key.toList r.key.toList then y :: insertByKey r ys else r :: y :: ys

/-- Whether no key occurs twice among the requirements. -/
def distinctKeys : List Requirement → Bool
  | [] => true
  | r :: rs => rs.all (fun x => x.key != r.key) && distinctKeys rs

/-- Insertion sort by key: the only list sorted by key when no key occurs twice. -/
def stableByKey (reqs : List Requirement) : List Requirement :=
  reqs.foldr insertByKey []

/-- The call `sort.Sort(ByKey(reqs))` of `Selector.Add`.  When no key occurs twice the
sorted list is determined by the keys.  The sort of the Go library is not stable, so the
order in which it leaves requirements of equal key depends on its algorithm; that order is
taken from `srt`, the result of the library sort on such a list. -/
def sortByKey (srt : List Requirement → List Requirement) (reqs : List Requirement) :
    List Requirement :=
  if distinctKeys reqs then stableByKey reqs else srt reqs

/-- The loop of `LabelSelectorAsSelector` over `ps.MatchLabels`. -/
def matchLabelsRequirements : List (String × String) → Except GoError (List Requirement)
  | [] => .ok []
  | (k, v) :: rest =>
    match NewRequirement k .Equals [v] with
    | .error err => .error err
    | .ok r =>
      match matchLabelsRequirements rest with
      | .error err => .error err
      | .ok rs => .ok (r :: rs)

/-- The switch of `LabelSelectorAsSelector` on `expr.Operator`. -/
def selectorOperator (op : String) : Except GoError Operator :=
  if op = "In" then .ok .In
  else if op = "NotIn" then .ok .NotIn
  else if op = "Exists" then .ok .Exists
  else if op = "DoesNotExist" then .ok .DoesNotExist
  else .error (.other "not a valid label selector operator")

/-- The loop of `LabelSelectorAsSelector` over `ps.MatchExpressions`. -/
def matchExpressionsRequirements :
    List LabelSelectorRequirement → Except GoError (List Requirement)
  | [] => .ok []
  | expr :: rest =>
    match selectorOperator expr.Operator with
    | .error err => .error err
    | .ok op =>
      match NewRequirement expr.Key op expr.Values with
      | .error err => .error err
      | .ok r =>
        match matchExpressionsRequirements rest with
        | .error err => .error err
        | .ok rs => .ok (r :: rs)

/-- The function `metav1.LabelSelectorAsSelector` (called at line 117). -/
def LabelSelectorAsSelector (srt : List Requirement → List Requirement) :
    Option LabelSelector → Except GoError Selector
  | Option.none => .ok .nothing
  | some ps =>
    if ps.MatchLabels.length + ps.MatchExpressions.length = 0 then .ok (.internal [])
    else
      match matchLabelsRequirements ps.MatchLabels with
      | .error err => .error err
      | .ok rs1 =>
        match matchExpressionsRequirements ps.MatchExpressions with
        | .error err => .error err
        | .ok rs2 => .ok (.internal (sortByKey srt (rs1 ++ rs2)))

/-- The method `Requirement.String`. -/
def Requirement.string (r : Requirement) : String :=
  let vals : String :=
    match r.strValues with
    | [v] => v
    | vs => ",".intercalate (safeSort vs)
  match r.operator with
  | .Equals => r.key ++ "=" ++ vals
  | .In => r.key ++ " in " ++ "(" ++ vals ++ ")"
  | .NotIn => r.key ++ " notin " ++ "(" ++ vals ++ ")"
  | .Exists => r.key
  | .DoesNotExist => "!" ++ r.key

/-- The method `Selector.String` (called at line 125). -/
def Selector.string : Selector → String
  | .nothing => ""
  | .internal reqs => ",".intercalate (reqs.map Requirement.string)

/-- The method `FooReconciler.Reconcile` (lines 40-151); `srt` is the library sort of
`sortByKey`. -/
def Reconcile (srt : List Requirement → List Requirement) (fl : Faults) (st : Store)
    (req : NamespacedName) : Outcome :=
  match st.getFoo fl.getFoo req with
  | .error err =>
    { completion := .returned Result.zero (IgnoreNotFound err), store := st,
      calls := [.getFoo req] }
  | .ok foo =>
    let fetched : Deployment × Store × List Call :=
      match st.getDeployment fl.getDeployment jackKey with
      | .ok d => (d, st, [])
      | .error errf =>
        if IsNotFound errf then
          ((dep foo), (st.create fl.create (dep foo)).2, [.create (dep foo)])
        else (Deployment.zero, st, [])
    let found := fetched.1
    let st1 := fetched.2.1
    let calls1 := [Call.getFoo req, Call.getDeployment jackKey] ++ fetched.2.2
    match LabelSelectorAsSelector srt found.Spec.Selector with
    | .error err =>
      { completion := .returned Result.zero (some err), store := st1, calls := calls1 }
    | .ok selector =>
      match found.Spec.Replicas with
      | Option.none => { completion := .panicked, store := st1, calls := calls1 }
      | some replicas =>
        let foo1 : Foo :=
          { foo with Status := { Selector := selector.string, Replicas := replicas } }
        let calls2 := calls1 ++ [Call.statusUpdate foo1]
        match st1.statusUpdate fl.statusUpdate foo1 with
        | (some err, st2) =>
          { completion := .returned Result.zero (some err), store := st2, calls := calls2 }
        | (Option.none, st2) =>
          let calls3 := calls2 ++ [Call.getFoo req]
          match st2.getFoo fl.getNewFoo req with
          | .error err =>
            { completion := .returned Result.zero (IgnoreNotFound err), store := st2,
              calls := calls3 }
          | .ok newfoo =>
            if replicas ≠ newfoo.Spec.Replicas then
              let found1 : Deployment :=
                { found with Spec := { found.Spec with Replicas := some newfoo.Spec.Replicas } }
              { completion := .returned Result.zero Option.none,
                store := (st2.update fl.update found1).2,
                calls := calls3 ++ [Call.update found1] }
            else
              { completion := .returned Result.zero Option.none, store := st2, calls := calls3 }

/-! ## mapPodsReqToFooReq -/

/-- The loop body of lines 176-181: append a request when the names agree. -/
def mapStep (objName : String) (req : List Request) (item : Foo) : List Request :=
  if item.Spec.Name = objName then
    req ++ [{ NamespacedName :=
      { Name := item.ObjectMeta.Name, Namespace := item.ObjectMeta.Namespace } }]
  else req

/-- The method `FooReconciler.mapPodsReqToFooReq` (lines 164-185): `listed` is the outcome
of `r.Client.List`, `objName` is `obj.GetName()`. -/
def mapPodsReqToFooReq (listed : Except GoError (List Foo)) (objName : String) : List Request :=
  match listed with
  | .error _ => []
  | .ok items => items.foldl (mapStep objName) []

/-! ## Auxiliary definitions used in the statements -/

/-- The owner with its status set as lines 125-126 set it. -/
def withStatus (foo : Foo) (sel : Selector) (replicas : Int) : Foo :=
  { foo with Status := { Selector := sel.string, Replicas := replicas } }

/-- The workload with its replica count set as line 142 sets it. -/
def withReplicas (d : Deployment) (n : Int) : Deployment :=
  { d with Spec := { d.Spec with Replicas := some n } }

/-- The selector obtained from the built workload: the single requirement `app=jack`. -/
def jackSelector : Selector :=
  .internal [{ key := "app", operator := .Equals, strValues := ["jack"] }]

/-- The store after one pass of `Reconcile` in which every store operation succeeds. -/
def reconcileStore (srt : List Requirement → List Requirement) (req : NamespacedName)
    (st : Store) : Store :=
  (Reconcile srt Faults.none st req).store

/-- Whether a call is a create. -/
def Call.isCreate : Call → Bool
  | .create _ => true
  | _ => false

/-- Whether a call is a workload update. -/
def Call.isUpdate : Call → Bool
  | .update _ => true
  | _ => false

/-- Whether a call is a status update. -/
def Call.isStatusUpdate : Call → Bool
  | .statusUpdate _ => true
  | _ => false

/-! ## Sample objects -/

/-- An owner in namespace `tnf` with the given name and desired replica count. -/
def sampleOwner (name : String) (replicas : Int) : Foo :=
  { ObjectMeta :=
      { Name := name, Namespace := "tnf", UID := "uid-of-" ++ name, Labels := [],
        OwnerReferences := [] },
    Spec := { Name := "pod-a", Replicas := replicas },
    Status := { Selector := "", Replicas := 0 } }

/-- The request for the sample owner of the given name. -/
def sampleRequest (name : String) : NamespacedName :=
  { Namespace := "tnf", Name := name }

/-- The create is refused; every other store operation succeeds. -/
def refusedCreate : Faults :=
  { Faults.none with create := some (.other "forbidden") }

/-- The fetch of the workload reports NotFound; no other error is injected. -/
def staleRead : Faults :=
  { Faults.none with getDeployment := some .notFound }

/-- The request for the sample owner `foo-01`. -/
def req01 : NamespacedName :=
  sampleRequest "foo-01"

/-- A stored workload `tnf/jack` with the given replica count and the selector `app=jack`. -/
def sampleWorkload (replicas : Int) : Deployment :=
  withReplicas (dep (sampleOwner "foo-01" 0)) replicas

/-- A stored workload `tnf/jack` whose selector has a requirement with an operator that
`LabelSelectorAsSelector` rejects. -/
def rejectedWorkload (replicas : Int) : Deployment :=
  { (sampleWorkload replicas) with
    Spec :=
      { (sampleWorkload replicas).Spec with
        Selector := some
          { MatchLabels := [("app", "jack")],
            MatchExpressions := [{ Key := "tier", Operator := "Unknown", Values := [] }] } } }

/-- A stored workload `tnf/jack` without a replica count. -/
def unsizedWorkload : Deployment :=
  { (sampleWorkload 3) with Spec := { (sampleWorkload 3).Spec with Replicas := Option.none } }

/-- A store holding the owner `foo-01` asking for 5 replicas and the workload with 3. -/
def driftStore : Store :=
  { foos := [sampleOwner "foo-01" 5], deployments := [sampleWorkload 3] }

/-- A store holding the owner `foo-01` asking for 5 replicas and a workload with 3 replicas
whose selector is rejected. -/
def rejectedStore : Store :=
  { foos := [sampleOwner "foo-01" 5], deployments := [rejectedWorkload 3] }

/-- A store holding the owner `foo-01` and a workload without a replica count. -/
def unsizedStore : Store :=
  { foos := [sampleOwner "foo-01" 5], deployments := [unsizedWorkload] }

/-- A store holding the owner `foo-01` asking for 3 replicas and the workload with 3. -/
def alignedStore : Store :=
  { foos := [sampleOwner "foo-01" 3], deployments := [sampleWorkload 3] }

/-- A store holding the owner `foo-01` asking for 3 replicas and no workload. -/
def ownerOnlyStore : Store :=
  { foos := [sampleOwner "foo-01" 3], deployments := [] }

/-- A stored workload `tnf/jack` with 3 replicas, an additional label and no owner
reference. -/
def labelledWorkload : Deployment :=
  { (sampleWorkload 3) with
    ObjectMeta :=
      { (sampleWorkload 3).ObjectMeta with
        Labels := [("app", "jack"), ("extra", "1")], OwnerReferences := [] } }

/-- A store holding the owner `foo-01` asking for 5 replicas and the labelled workload. -/
def staleStore : Store :=
  { foos := [sampleOwner "foo-01" 5], deployments := [labelledWorkload] }

/-- A store holding the workload and no owner. -/
def orphanStore : Store :=
  { foos := [], deployments := [sampleWorkload 3] }

/-! ## Facts about the store -/

/-- An object found under a key has that key. -/
theorem lookup_key {α : Type} (key : α → NamespacedName) (k : NamespacedName) (x : α) :
    ∀ xs : List α, lookup key k xs = some x → key x = k := by
  intro xs
  induction xs with
  | nil => intro h; simp [lookup] at h
  | cons y ys ih =>
    intro h
    by_cases hy : key y = k
    · simp [lookup, hy] at h
      rw [← h]; exact hy
    · simp [lookup, hy] at h
      exact ih h

/-- After a replacement the new object is the one found under its key. -/
theorem lookup_replaceFirst_same {α : Type} (key : α → NamespacedName) (new x : α) :
    ∀ xs : List α, lookup key (key new) xs = some x →
      lookup key (key new) (replaceFirst key new xs) = some new := by
  intro xs
  induction xs with
  | nil => intro h; simp [lookup] at h
  | cons y ys ih =>
    intro h
    by_cases hy : key y = key new
    · simp [replaceFirst, lookup, hy]
    · simp [lookup, hy] at h
      simp [replaceFirst, lookup, hy, ih h]

/-- A replacement leaves the objects under other keys as they were. -/
theorem lookup_replaceFirst_other {α : Type} (key : α → NamespacedName) (new : α)
    (k : NamespacedName) (hk : key new ≠ k) :
    ∀ xs : List α, lookup key k (replaceFirst key new xs) = lookup key k xs := by
  intro xs
  induction xs with
  | nil => simp [replaceFirst]
  | cons y ys ih =>
    by_cases hy : key y = key new
    · have hyk : key y ≠ k := by rw [hy]; exact hk
      simp [replaceFirst, lookup, hy, hk]
    · by_cases hyk : key y = k
      · rw [replaceFirst, if_neg hy]
        simp [lookup, hyk]
      · rw [replaceFirst, if_neg hy]
        simp [lookup, hyk, ih]

/-- Replacing an object by itself changes nothing. -/
theorem replaceFirst_self {α : Type} (key : α → NamespacedName) (x : α) :
    ∀ xs : List α, lookup key (key x) xs = some x → replaceFirst key x xs = xs := by
  intro xs
  induction xs with
  | nil => intro _; rfl
  | cons y ys ih =>
    intro h
    by_cases hy : key y = key x
    · simp [lookup, hy] at h
      simp [replaceFirst, hy, h]
    · simp [lookup, hy] at h
      simp [replaceFirst, hy, ih h]

/-- Replacing under a key that holds nothing changes nothing. -/
theorem replaceFirst_absent {α : Type} (key : α → NamespacedName) (x : α) :
    ∀ xs : List α, lookup key (key x) xs = none → replaceFirst key x xs = xs := by
  intro xs
  induction xs with
  | nil => intro _; rfl
  | cons y ys ih =>
    intro h
    by_cases hy : key y = key x
    · simp [lookup, hy] at h
    · simp [lookup, hy] at h
      simp [replaceFirst, hy, ih h]

/-- Lookup after appending an object to a collection without its key. -/
theorem lookup_append_absent {α : Type} (key : α → NamespacedName) (k : NamespacedName)
    (d : α) : ∀ xs : List α, lookup key k xs = none →
      lookup key k (xs ++ [d]) = if key d = k then some d else none := by
  intro xs
  induction xs with
  | nil => intro _; simp [lookup]
  | cons y ys ih =>
    intro h
    by_cases hy : key y = k
    · simp [lookup, hy] at h
    · simp [lookup, hy] at h
      simp [lookup, hy, ih h]

/-! ## The two main paths of Reconcile -/

/-- The selector of the built workload converts to the requirement `app=jack`. -/
theorem LabelSelectorAsSelector_dep (srt : List Requirement → List Requirement)
    (foo : Foo) :
    LabelSelectorAsSelector srt (dep foo).Spec.Selector = .ok jackSelector := by
  rfl

/-- The selector of the built workload prints as `app=jack`. -/
theorem jackSelector_string : jackSelector.string = "app=jack" := by
  decide

/-- A create leaves the owners as they were. -/
theorem create_foos (st : Store) (fault : Option GoError) (d : Deployment) :
    (st.create fault d).2.foos = st.foos := by
  unfold Store.create
  split
  · rfl
  · split <;> rfl

/-- After its status is written the owner is found with the new status. -/
theorem lookup_withStatus (st : Store) (req : NamespacedName) (foo : Foo)
    (hfoo : lookup Foo.key req st.foos = some foo) (s : FooStatus) :
    lookup Foo.key req (replaceFirst Foo.key
      { ObjectMeta := foo.ObjectMeta, Spec := foo.Spec, Status := s } st.foos)
      = some { ObjectMeta := foo.ObjectMeta, Spec := foo.Spec, Status := s } := by
  have hk : foo.key = req := lookup_key Foo.key req foo st.foos hfoo
  have hkS : Foo.key { ObjectMeta := foo.ObjectMeta, Spec := foo.Spec, Status := s } = req := hk
  have h := lookup_replaceFirst_same Foo.key
    { ObjectMeta := foo.ObjectMeta, Spec := foo.Spec, Status := s } foo st.foos
    (by rw [hkS]; exact hfoo)
  rw [hkS] at h; exact h

/-- The pass over an existing workload when every store operation succeeds. -/
theorem Reconcile_found (srt : List Requirement → List Requirement)
    (st : Store) (req : NamespacedName) (foo : Foo) (d : Deployment)
    (r : Int) (sel : Selector)
    (hfoo : lookup Foo.key req st.foos = some foo)
    (hdep : lookup Deployment.key jackKey st.deployments = some d)
    (hr : d.Spec.Replicas = some r)
    (hsel : LabelSelectorAsSelector srt d.Spec.Selector = .ok sel) :
    Reconcile srt Faults.none st req =
      if r ≠ foo.Spec.Replicas then
        { completion := .returned Result.zero Option.none,
          store :=
            { foos := replaceFirst Foo.key (withStatus foo sel r) st.foos,
              deployments :=
                replaceFirst Deployment.key (withReplicas d foo.Spec.Replicas) st.deployments },
          calls := [.getFoo req, .getDeployment jackKey, .statusUpdate (withStatus foo sel r),
            .getFoo req, .update (withReplicas d foo.Spec.Replicas)] }
      else
        { completion := .returned Result.zero Option.none,
          store := { foos := replaceFirst Foo.key (withStatus foo sel r) st.foos,
                     deployments := st.deployments },
          calls := [.getFoo req, .getDeployment jackKey, .statusUpdate (withStatus foo sel r),
            .getFoo req] } := by
  have hk : foo.key = req := lookup_key Foo.key req foo st.foos hfoo
  have hkS : ∀ s : FooStatus,
      Foo.key { ObjectMeta := foo.ObjectMeta, Spec := foo.Spec, Status := s } = req :=
    fun _ => hk
  have hdk : d.key = jackKey := lookup_key Deployment.key jackKey d st.deployments hdep
  have hdkS : ∀ sp : DeploymentSpec,
      Deployment.key { ObjectMeta := d.ObjectMeta, Spec := sp } = jackKey :=
    fun _ => hdk
  have hfoo1 := lookup_withStatus st req foo hfoo
  by_cases hne : r = foo.Spec.Replicas
  · simp [Reconcile, Store.getFoo, Store.getDeployment, Store.statusUpdate, Faults.none,
      withStatus, withReplicas, hfoo, hdep, hr, hsel, hkS, hfoo1, hne]
  · simp [Reconcile, Store.getFoo, Store.getDeployment, Store.statusUpdate, Store.update,
      Faults.none, withStatus, withReplicas, hfoo, hdep, hr, hsel, hkS, hfoo1, hdkS, hne]

/-- The pass when no workload exists and the reads and the status update succeed. -/
theorem Reconcile_absent (srt : List Requirement → List Requirement)
    (fl : Faults) (st : Store) (req : NamespacedName) (foo : Foo)
    (h1 : fl.getFoo = Option.none) (h2 : fl.getDeployment = Option.none)
    (h4 : fl.statusUpdate = Option.none) (h5 : fl.getNewFoo = Option.none)
    (hfoo : lookup Foo.key req st.foos = some foo)
    (habs : lookup Deployment.key jackKey st.deployments = Option.none) :
    Reconcile srt fl st req =
      if (1 : Int) ≠ foo.Spec.Replicas then
        { completion := .returned Result.zero Option.none,
          store :=
            (Store.update
              { foos := replaceFirst Foo.key (withStatus foo jackSelector 1) st.foos,
                deployments := (st.create fl.create (dep foo)).2.deployments }
              fl.update (withReplicas (dep foo) foo.Spec.Replicas)).2,
          calls := [.getFoo req, .getDeployment jackKey, .create (dep foo),
            .statusUpdate (withStatus foo jackSelector 1), .getFoo req,
            .update (withReplicas (dep foo) foo.Spec.Replicas)] }
      else
        { completion := .returned Result.zero Option.none,
          store :=
            { foos := replaceFirst Foo.key (withStatus foo jackSelector 1) st.foos,
              deployments := (st.create fl.create (dep foo)).2.deployments },
          calls := [.getFoo req, .getDeployment jackKey, .create (dep foo),
            .statusUpdate (withStatus foo jackSelector 1), .getFoo req] } := by
  have hk : foo.key = req := lookup_key Foo.key req foo st.foos hfoo
  have hkS : ∀ s : FooStatus,
      Foo.key { ObjectMeta := foo.ObjectMeta, Spec := foo.Spec, Status := s } = req :=
    fun _ => hk
  have hfoo1 := lookup_withStatus st req foo hfoo
  have hc := create_foos st fl.create (dep foo)
  have hsel := LabelSelectorAsSelector_dep srt foo
  have hrep : (dep foo).Spec.Replicas = some 1 := rfl
  by_cases hne : (1 : Int) = foo.Spec.Replicas
  · simp [Reconcile, Store.getFoo, Store.getDeployment, Store.statusUpdate,
      withStatus, withReplicas, hfoo, habs, h1, h2, h4, h5, hsel, hrep, hkS, hfoo1, hc,
      IsNotFound, ← hne]
  · simp [Reconcile, Store.getFoo, Store.getDeployment, Store.statusUpdate,
      withStatus, withReplicas, hfoo, habs, h1, h2, h4, h5, hsel, hrep, hkS, hfoo1, hc,
      IsNotFound, hne]

/-! ## Deletion tolerance -/

/-- Claim C8: when the first fetch reports that the owner does not exist, Reconcile returns
the empty result with a nil error, issues no call besides that fetch, and leaves the store
as it was. -/
theorem reconcile_missing_owner_is_noop (srt : List Requirement → List Requirement)
    (fl : Faults) (st : Store) (req : NamespacedName)
    (hget : st.getFoo fl.getFoo req = .error .notFound) :
    Reconcile srt fl st req =
      { completion := .returned { Requeue := false, RequeueAfter := 0 } Option.none,
        store := st, calls := [.getFoo req] } := by
  simp [Reconcile, hget, IgnoreNotFound, IsNotFound, Result.zero]

/-- Claim C8 on a store that holds a workload and no owner. -/
theorem reconcile_missing_owner_is_noop_witness :
    Store.getFoo orphanStore Faults.none.getFoo req01 = .error .notFound ∧
      Reconcile stableByKey Faults.none orphanStore req01 =
        { completion := .returned { Requeue := false, RequeueAfter := 0 } Option.none,
          store := orphanStore,
          calls := [.getFoo req01] } :=
  ⟨rfl, reconcile_missing_owner_is_noop stableByKey Faults.none orphanStore req01 rfl⟩

/-! ## Mapping of linked resources to owners -/

/-- The loop of mapPodsReqToFooReq appends the requests of the matching owners. -/
theorem foldl_mapStep (objName : String) (items : List Foo) :
    ∀ acc : List Request, items.foldl (mapStep objName) acc =
      acc ++ (items.filter (fun item => decide (item.Spec.Name = objName))).map
        (fun item => { NamespacedName :=
          { Name := item.ObjectMeta.Name, Namespace := item.ObjectMeta.Namespace } }) := by
  induction items with
  | nil => intro acc; simp
  | cons item rest ih =>
    intro acc
    by_cases h : item.Spec.Name = objName
    · simp [List.foldl, mapStep, h, ih]
    · simp [List.foldl, mapStep, h, ih]

/-- Claim C6: on a successful listing, mapPodsReqToFooReq returns, in listing order, one
request (namespace, name) for each owner whose spec name equals the name of the linked
resource, and nothing else. -/
theorem mapPodsReqToFooReq_matching_owners (items : List Foo) (objName : String) :
    mapPodsReqToFooReq (.ok items) objName =
      (items.filter (fun item => decide (item.Spec.Name = objName))).map
        (fun item => { NamespacedName :=
          { Name := item.ObjectMeta.Name, Namespace := item.ObjectMeta.Namespace } }) := by
  simp [mapPodsReqToFooReq, foldl_mapStep]

/-! ## The ownership back-reference -/

/-- Claim C2, evaluated at an owner named `foo-02`: the built workload carries one
back-reference with the owner's UID, but its name is the constant `foo-01`, not the
owner's name. -/
theorem dep_ownerReference_of_foo02 :
    (dep (sampleOwner "foo-02" 3)).ObjectMeta.OwnerReferences =
        [{ APIVersion := "tutorial.my.domain/v1", Kind := "Foo", Name := "foo-01",
           UID := (sampleOwner "foo-02" 3).ObjectMeta.UID,
           BlockOwnerDeletion := some true, Controller := some true }] ∧
      (sampleOwner "foo-02" 3).ObjectMeta.Name = "foo-02" ∧
      (sampleOwner "foo-02" 3).ObjectMeta.Name ≠ "foo-01" := by
  refine ⟨rfl, rfl, ?_⟩
  decide

/-! ## A failed fetch of the workload -/

/-- Claim C1, evaluated at a store holding one owner and any workloads, with the fetch of
the workload failing with an error other than NotFound: Reconcile issues no create, no
status update and no workload update, but it does not return the error; it dereferences
the nil replica count of the empty `found` and panics. -/
theorem reconcile_workload_fetch_error_panics (srt : List Requirement → List Requirement)
    (foo : Foo) (ds : List Deployment)
    (msg : String) :
    Reconcile srt { Faults.none with getDeployment := some (.other msg) }
        { foos := [foo], deployments := ds } foo.key =
      { completion := .panicked, store := { foos := [foo], deployments := ds },
        calls := [.getFoo foo.key, .getDeployment jackKey] } := by
  simp [Reconcile, Store.getFoo, Store.getDeployment, Faults.none, lookup, IsNotFound,
    Deployment.zero, LabelSelectorAsSelector]

/-! ## Status propagation -/

/-- Claim C4: with an existing workload of replica count `r` whose label selector converts
to `sel`, and every store operation succeeding, one pass of Reconcile returns success and
leaves the stored owner with status replicas `r`, the value read before the replica
correction, and status selector the printed form of `sel`. -/
theorem reconcile_propagates_status (srt : List Requirement → List Requirement)
    (st : Store) (req : NamespacedName) (foo : Foo)
    (d : Deployment) (r : Int) (sel : Selector)
    (hfoo : lookup Foo.key req st.foos = some foo)
    (hdep : lookup Deployment.key jackKey st.deployments = some d)
    (hr : d.Spec.Replicas = some r)
    (hsel : LabelSelectorAsSelector srt d.Spec.Selector = .ok sel) :
    (Reconcile srt Faults.none st req).completion = .returned Result.zero Option.none ∧
      lookup Foo.key req (Reconcile srt Faults.none st req).store.foos =
        some { foo with Status := { Selector := sel.string, Replicas := r } } := by
  have hfoo1 := lookup_withStatus st req foo hfoo { Selector := sel.string, Replicas := r }
  rw [Reconcile_found srt st req foo d r sel hfoo hdep hr hsel]
  by_cases hne : r = foo.Spec.Replicas
  · rw [if_neg (not_not.mpr hne)]
    exact ⟨rfl, hfoo1⟩
  · rw [if_pos hne]
    exact ⟨rfl, hfoo1⟩

/-- Claim C4 on a store holding the owner `foo-01` asking for 5 replicas and the workload
`tnf/jack` with 3 replicas. -/
theorem reconcile_propagates_status_witness :
    lookup Foo.key req01 driftStore.foos = some (sampleOwner "foo-01" 5) ∧
      lookup Deployment.key jackKey driftStore.deployments = some (sampleWorkload 3) ∧
      (sampleWorkload 3).Spec.Replicas = some 3 ∧
      LabelSelectorAsSelector stableByKey (sampleWorkload 3).Spec.Selector = .ok jackSelector ∧
      (Reconcile stableByKey Faults.none driftStore
          req01).completion = .returned Result.zero Option.none ∧
      lookup Foo.key req01
        (Reconcile stableByKey Faults.none driftStore req01).store.foos =
        some { (sampleOwner "foo-01" 5) with
          Status := { Selector := jackSelector.string, Replicas := 3 } } :=
  ⟨rfl, rfl, rfl, rfl,
    reconcile_propagates_status stableByKey driftStore
      req01 (sampleOwner "foo-01" 5) (sampleWorkload 3) 3 jackSelector
      rfl rfl rfl rfl⟩

/-! ## Drift correction -/

/-- Claim C3 as stated fails: with an owner asking for 5 replicas and a stored workload of
3 replicas whose selector has an operator that the conversion rejects, every store
operation succeeds, yet Reconcile returns the conversion error and the stored workload
keeps its 3 replicas. -/
theorem drift_kept_when_selector_rejected :
    lookup Foo.key req01 rejectedStore.foos = some (sampleOwner "foo-01" 5) ∧
      (sampleOwner "foo-01" 5).Spec.Replicas = 5 ∧
      lookup Deployment.key jackKey rejectedStore.deployments = some (rejectedWorkload 3) ∧
      (rejectedWorkload 3).Spec.Replicas = some 3 ∧
      (Reconcile stableByKey Faults.none rejectedStore req01) =
        { completion := .returned Result.zero
            (some (.other "not a valid label selector operator")),
          store := rejectedStore,
          calls := [.getFoo req01, .getDeployment jackKey] } := by
  decide

/-- Claim C3, amended: with an owner asking for `s` replicas and an existing workload of
`r` replicas, `r` different from `s`, whose label selector converts without error, and every
store operation succeeding, one pass of Reconcile returns success and leaves the stored
workload equal to the one read except for its replica count, which is `s`. -/
theorem reconcile_corrects_drift (srt : List Requirement → List Requirement)
    (st : Store) (req : NamespacedName) (foo : Foo)
    (d : Deployment) (r : Int) (sel : Selector)
    (hfoo : lookup Foo.key req st.foos = some foo)
    (hdep : lookup Deployment.key jackKey st.deployments = some d)
    (hr : d.Spec.Replicas = some r)
    (hsel : LabelSelectorAsSelector srt d.Spec.Selector = .ok sel)
    (hne : r ≠ foo.Spec.Replicas) :
    (Reconcile srt Faults.none st req).completion = .returned Result.zero Option.none ∧
      lookup Deployment.key jackKey (Reconcile srt Faults.none st req).store.deployments =
        some { d with Spec := { d.Spec with Replicas := some foo.Spec.Replicas } } := by
  have hdk : d.key = jackKey := lookup_key Deployment.key jackKey d st.deployments hdep
  have hdk1 : (withReplicas d foo.Spec.Replicas).key = jackKey := hdk
  have h := lookup_replaceFirst_same Deployment.key (withReplicas d foo.Spec.Replicas) d
    st.deployments (by rw [hdk1]; exact hdep)
  rw [hdk1] at h
  rw [Reconcile_found srt st req foo d r sel hfoo hdep hr hsel, if_pos hne]
  exact ⟨rfl, h⟩

/-- Claim C3, amended, on a store holding the owner `foo-01` asking for 5 replicas and the
workload `tnf/jack` with 3 replicas. -/
theorem reconcile_corrects_drift_witness :
    lookup Foo.key req01 driftStore.foos = some (sampleOwner "foo-01" 5) ∧
      lookup Deployment.key jackKey driftStore.deployments = some (sampleWorkload 3) ∧
      (sampleWorkload 3).Spec.Replicas = some 3 ∧
      LabelSelectorAsSelector stableByKey (sampleWorkload 3).Spec.Selector = .ok jackSelector ∧
      (3 : Int) ≠ (sampleOwner "foo-01" 5).Spec.Replicas ∧
      (Reconcile stableByKey Faults.none driftStore
          req01).completion = .returned Result.zero Option.none ∧
      lookup Deployment.key jackKey
        (Reconcile stableByKey Faults.none driftStore req01).store.deployments =
        some { (sampleWorkload 3) with
          Spec := { (sampleWorkload 3).Spec with
            Replicas := some (sampleOwner "foo-01" 5).Spec.Replicas } } :=
  ⟨rfl, rfl, rfl, rfl, by decide,
    reconcile_corrects_drift stableByKey driftStore
      req01 (sampleOwner "foo-01" 5) (sampleWorkload 3) 3 jackSelector
      rfl rfl rfl rfl (by decide)⟩

/-! ## Creation -/

/-- The pass that finds no workload, every store operation succeeding: Reconcile returns
success and issues exactly one create, of the workload `tnf/jack` with replica count 1
whatever the owner asks for; its single back-reference has the owner's UID, kind `Foo`, both
flags true and the constant name `foo-01`; the stored owner then has status replicas 1 and
status selector `app=jack`. -/
theorem reconcile_creates_workload (srt : List Requirement → List Requirement)
    (st : Store) (req : NamespacedName) (foo : Foo)
    (hfoo : lookup Foo.key req st.foos = some foo)
    (habs : lookup Deployment.key jackKey st.deployments = Option.none) :
    (Reconcile srt Faults.none st req).completion = .returned Result.zero Option.none ∧
      (Reconcile srt Faults.none st req).calls.filter Call.isCreate = [.create (dep foo)] ∧
      (dep foo).ObjectMeta.Namespace = "tnf" ∧
      (dep foo).ObjectMeta.Name = "jack" ∧
      (dep foo).Spec.Replicas = some 1 ∧
      (dep foo).ObjectMeta.OwnerReferences =
        [{ APIVersion := "tutorial.my.domain/v1", Kind := "Foo", Name := "foo-01",
           UID := foo.ObjectMeta.UID, BlockOwnerDeletion := some true,
           Controller := some true }] ∧
      lookup Foo.key req (Reconcile srt Faults.none st req).store.foos =
        some { foo with Status := { Selector := "app=jack", Replicas := 1 } } := by
  have hfoo1 := lookup_withStatus st req foo hfoo { Selector := "app=jack", Replicas := 1 }
  have hsame : withStatus foo jackSelector 1 =
      { foo with Status := { Selector := "app=jack", Replicas := 1 } } := by
    simp [withStatus, jackSelector_string]
  rw [Reconcile_absent srt Faults.none st req foo rfl rfl rfl rfl hfoo habs, hsame]
  by_cases hne : (1 : Int) = foo.Spec.Replicas
  · rw [if_neg (not_not.mpr hne)]
    exact ⟨rfl, rfl, rfl, rfl, rfl, rfl, hfoo1⟩
  · rw [if_pos hne]
    refine ⟨rfl, rfl, rfl, rfl, rfl, rfl, ?_⟩
    unfold Store.update
    split
    · exact hfoo1
    · split
      · exact hfoo1
      · exact hfoo1

/-- The creating pass on a store holding the owner `foo-01` asking for 3 replicas and no
workload. -/
theorem reconcile_creates_workload_at_foo01 :
    lookup Foo.key req01 ownerOnlyStore.foos = some (sampleOwner "foo-01" 3) ∧
      lookup Deployment.key jackKey ownerOnlyStore.deployments = Option.none ∧
      (Reconcile stableByKey Faults.none ownerOnlyStore req01).completion =
        .returned Result.zero Option.none ∧
      (Reconcile stableByKey Faults.none ownerOnlyStore req01).calls.filter Call.isCreate =
        [.create (dep (sampleOwner "foo-01" 3))] ∧
      (dep (sampleOwner "foo-01" 3)).ObjectMeta.Namespace = "tnf" ∧
      (dep (sampleOwner "foo-01" 3)).ObjectMeta.Name = "jack" ∧
      (dep (sampleOwner "foo-01" 3)).Spec.Replicas = some 1 ∧
      (dep (sampleOwner "foo-01" 3)).ObjectMeta.OwnerReferences =
        [{ APIVersion := "tutorial.my.domain/v1", Kind := "Foo", Name := "foo-01",
           UID := (sampleOwner "foo-01" 3).ObjectMeta.UID, BlockOwnerDeletion := some true,
           Controller := some true }] ∧
      lookup Foo.key req01 (Reconcile stableByKey Faults.none ownerOnlyStore req01).store.foos =
        some { (sampleOwner "foo-01" 3) with
          Status := { Selector := "app=jack", Replicas := 1 } } :=
  ⟨rfl, rfl,
    reconcile_creates_workload stableByKey ownerOnlyStore req01 (sampleOwner "foo-01" 3)
      rfl rfl⟩

/-- Claim C7, evaluated at an owner named `foo-02` (any desired replica count) with no
workload stored and every store operation succeeding: as claimed, Reconcile returns
success, issues exactly one create, of the workload `tnf/jack` with replica count 1, and
leaves the owner with status replicas 1 and status selector `app=jack`; but the single
back-reference of the created workload, which carries the UID of `foo-02`, names
`foo-01`, not the owner. -/
theorem reconcile_creates_reference_naming_foo01
    (srt : List Requirement → List Requirement) (replicas : Int) :
    (Reconcile srt Faults.none
        { foos := [sampleOwner "foo-02" replicas], deployments := [] }
        (sampleRequest "foo-02")).completion = .returned Result.zero Option.none ∧
      (Reconcile srt Faults.none
        { foos := [sampleOwner "foo-02" replicas], deployments := [] }
        (sampleRequest "foo-02")).calls.filter Call.isCreate =
        [.create (dep (sampleOwner "foo-02" replicas))] ∧
      (dep (sampleOwner "foo-02" replicas)).ObjectMeta.Namespace = "tnf" ∧
      (dep (sampleOwner "foo-02" replicas)).ObjectMeta.Name = "jack" ∧
      (dep (sampleOwner "foo-02" replicas)).Spec.Replicas = some 1 ∧
      (dep (sampleOwner "foo-02" replicas)).ObjectMeta.OwnerReferences =
        [{ APIVersion := "tutorial.my.domain/v1", Kind := "Foo", Name := "foo-01",
           UID := "uid-of-foo-02", BlockOwnerDeletion := some true,
           Controller := some true }] ∧
      (sampleOwner "foo-02" replicas).ObjectMeta.Name = "foo-02" ∧
      (sampleOwner "foo-02" replicas).ObjectMeta.UID = "uid-of-foo-02" ∧
      lookup Foo.key (sampleRequest "foo-02")
        (Reconcile srt Faults.none
          { foos := [sampleOwner "foo-02" replicas], deployments := [] }
          (sampleRequest "foo-02")).store.foos =
        some { (sampleOwner "foo-02" replicas) with
          Status := { Selector := "app=jack", Replicas := 1 } } := by
  have hfoo : lookup Foo.key (sampleRequest "foo-02")
      ({ foos := [sampleOwner "foo-02" replicas], deployments := [] } : Store).foos =
      some (sampleOwner "foo-02" replicas) := rfl
  have huid : (sampleOwner "foo-02" replicas).ObjectMeta.UID = "uid-of-foo-02" := by
    show "uid-of-" ++ "foo-02" = "uid-of-foo-02"
    decide
  obtain ⟨h1, h2, h3, h4, h5, h6, h7⟩ := reconcile_creates_workload srt
    { foos := [sampleOwner "foo-02" replicas], deployments := [] }
    (sampleRequest "foo-02") (sampleOwner "foo-02" replicas) hfoo rfl
  rw [huid] at h6
  exact ⟨h1, h2, h3, h4, h5, h6, rfl, huid, h7⟩

/-! ## A failed create -/

/-- Claim C10: for an owner with no existing workload, when the create fails while the
status update and the second fetch of the owner succeed, Reconcile still issues the status
update built from the workload that was never stored and returns success with a nil error;
the stored owner has status replicas 1 and status selector `app=jack`, and the store holds
no workload. -/
theorem reconcile_hides_create_failure (srt : List Requirement → List Requirement)
    (fl : Faults) (st : Store) (req : NamespacedName)
    (foo : Foo) (e : GoError)
    (h1 : fl.getFoo = Option.none) (h2 : fl.getDeployment = Option.none)
    (h3 : fl.create = some e)
    (h4 : fl.statusUpdate = Option.none) (h5 : fl.getNewFoo = Option.none)
    (hfoo : lookup Foo.key req st.foos = some foo)
    (habs : lookup Deployment.key jackKey st.deployments = Option.none) :
    (Reconcile srt fl st req).completion = .returned Result.zero Option.none ∧
      (Reconcile srt fl st req).calls.filter Call.isCreate = [.create (dep foo)] ∧
      (Reconcile srt fl st req).calls.filter Call.isStatusUpdate =
        [.statusUpdate { foo with Status := { Selector := "app=jack", Replicas := 1 } }] ∧
      lookup Foo.key req (Reconcile srt fl st req).store.foos =
        some { foo with Status := { Selector := "app=jack", Replicas := 1 } } ∧
      lookup Deployment.key jackKey (Reconcile srt fl st req).store.deployments = Option.none := by
  have hfoo1 := lookup_withStatus st req foo hfoo { Selector := "app=jack", Replicas := 1 }
  have hsame : withStatus foo jackSelector 1 =
      { foo with Status := { Selector := "app=jack", Replicas := 1 } } := by
    simp [withStatus, jackSelector_string]
  have hcreate : (st.create fl.create (dep foo)).2.deployments = st.deployments := by
    rw [h3]; rfl
  rw [Reconcile_absent srt fl st req foo h1 h2 h4 h5 hfoo habs, hsame, hcreate]
  by_cases hne : (1 : Int) = foo.Spec.Replicas
  · rw [if_neg (not_not.mpr hne)]
    exact ⟨rfl, rfl, rfl, hfoo1, habs⟩
  · rw [if_pos hne]
    refine ⟨rfl, rfl, rfl, ?_, ?_⟩
    · unfold Store.update
      split
      · exact hfoo1
      · split
        · exact hfoo1
        · exact hfoo1
    · have hkey : (withReplicas (dep foo) foo.Spec.Replicas).key = jackKey := rfl
      unfold Store.update
      split
      · exact habs
      · rw [hkey]
        simp only [habs]

/-- Claim C10 on a store holding the owner `foo-01` and no workload, the create being
refused. -/
theorem reconcile_hides_create_failure_witness :
    refusedCreate.getFoo = Option.none ∧
      refusedCreate.getDeployment = Option.none ∧
      refusedCreate.create = some (.other "forbidden") ∧
      refusedCreate.statusUpdate = Option.none ∧
      refusedCreate.getNewFoo = Option.none ∧
      lookup Foo.key req01 ownerOnlyStore.foos = some (sampleOwner "foo-01" 3) ∧
      lookup Deployment.key jackKey ownerOnlyStore.deployments = Option.none ∧
      (Reconcile stableByKey refusedCreate ownerOnlyStore
          req01).completion = .returned Result.zero Option.none ∧
      (Reconcile stableByKey refusedCreate ownerOnlyStore req01).calls.filter Call.isCreate =
        [.create (dep (sampleOwner "foo-01" 3))] ∧
      (Reconcile stableByKey refusedCreate ownerOnlyStore req01).calls.filter Call.isStatusUpdate =
        [.statusUpdate { (sampleOwner "foo-01" 3) with
          Status := { Selector := "app=jack", Replicas := 1 } }] ∧
      lookup Foo.key req01
        (Reconcile stableByKey refusedCreate ownerOnlyStore req01).store.foos =
        some { (sampleOwner "foo-01" 3) with
          Status := { Selector := "app=jack", Replicas := 1 } } ∧
      lookup Deployment.key jackKey
        (Reconcile stableByKey refusedCreate ownerOnlyStore
          req01).store.deployments = Option.none :=
  ⟨rfl, rfl, rfl, rfl, rfl, rfl, rfl,
    reconcile_hides_create_failure stableByKey refusedCreate
      ownerOnlyStore req01 (sampleOwner "foo-01" 3) (.other "forbidden")
      rfl rfl rfl rfl rfl rfl rfl⟩

/-! ## The existing workload is authoritative -/

/-- The pass over a workload that the fetch returns, whatever the other store operations
do: no create, the stored workload changes at most in its replica count, and no update
when the replica counts already agree. -/
theorem reconcile_keeps_fetched_workload (srt : List Requirement → List Requirement)
    (fl : Faults) (st : Store) (req : NamespacedName)
    (d : Deployment)
    (hget : fl.getDeployment = Option.none)
    (hdep : lookup Deployment.key jackKey st.deployments = some d) :
    (Reconcile srt fl st req).calls.filter Call.isCreate = [] ∧
      (∃ n : Option Int,
        lookup Deployment.key jackKey (Reconcile srt fl st req).store.deployments =
          some { d with Spec := { d.Spec with Replicas := n } }) ∧
      (∀ foo : Foo, lookup Foo.key req st.foos = some foo →
        d.Spec.Replicas = some foo.Spec.Replicas →
        (Reconcile srt fl st req).calls.filter Call.isUpdate = []) := by
  obtain ⟨f1, f2, f3, f4, f5, f6⟩ := fl
  simp only at hget
  subst hget
  have hdk : d.key = jackKey := lookup_key Deployment.key jackKey d st.deployments hdep
  have hdkS : ∀ sp : DeploymentSpec,
      Deployment.key { ObjectMeta := d.ObjectMeta, Spec := sp } = jackKey :=
    fun _ => hdk
  have hrepl : ∀ sp : DeploymentSpec, lookup Deployment.key jackKey
      (replaceFirst Deployment.key { ObjectMeta := d.ObjectMeta, Spec := sp } st.deployments) =
      some { ObjectMeta := d.ObjectMeta, Spec := sp } := by
    intro sp
    have h := lookup_replaceFirst_same Deployment.key
      { ObjectMeta := d.ObjectMeta, Spec := sp } d st.deployments
      (by rw [hdkS sp]; exact hdep)
    rw [hdkS sp] at h; exact h
  have hkeep : ∃ n : Option Int, lookup Deployment.key jackKey st.deployments =
      some { d with Spec := { d.Spec with Replicas := n } } := ⟨d.Spec.Replicas, hdep⟩
  cases f1 with
  | some e =>
    simp [Reconcile, Store.getFoo, Call.isCreate, Call.isUpdate]
    exact hkeep
  | none =>
    cases hf : lookup Foo.key req st.foos with
    | none =>
      simp [Reconcile, Store.getFoo, hf, Call.isCreate, Call.isUpdate]
      exact hkeep
    | some foo =>
      have hk : foo.key = req := lookup_key Foo.key req foo st.foos hf
      have hkS : ∀ s : FooStatus,
          Foo.key { ObjectMeta := foo.ObjectMeta, Spec := foo.Spec, Status := s } = req :=
        fun _ => hk
      have hfoo1 := lookup_withStatus st req foo hf
      cases hs : LabelSelectorAsSelector srt d.Spec.Selector with
      | error err =>
        simp [Reconcile, Store.getFoo, Store.getDeployment, hf, hdep, hs, Call.isCreate,
          Call.isUpdate]
        exact ⟨d.Spec.Replicas, rfl⟩
      | ok sel =>
        cases hr : d.Spec.Replicas with
        | none =>
          simp [Reconcile, Store.getFoo, Store.getDeployment, hf, hdep, hs, hr, Call.isCreate,
            Call.isUpdate]
          exact ⟨d.Spec.Replicas, rfl⟩
        | some r =>
          cases f4 with
          | some e =>
            simp [Reconcile, Store.getFoo, Store.getDeployment, Store.statusUpdate, hf, hdep,
              hs, hr, Call.isCreate, Call.isUpdate]
            exact ⟨d.Spec.Replicas, rfl⟩
          | none =>
            cases f5 with
            | some e =>
              simp [Reconcile, Store.getFoo, Store.getDeployment, Store.statusUpdate, hf, hdep,
                hs, hr, hkS, hfoo1, Call.isCreate, Call.isUpdate]
              exact ⟨d.Spec.Replicas, rfl⟩
            | none =>
              by_cases hne : r = foo.Spec.Replicas
              · simp [Reconcile, Store.getFoo, Store.getDeployment, Store.statusUpdate, hf, hdep,
                  hs, hr, hkS, hfoo1, hne, Call.isCreate, Call.isUpdate]
                exact ⟨d.Spec.Replicas, rfl⟩
              · cases f6 with
                | some e =>
                  simp [Reconcile, Store.getFoo, Store.getDeployment, Store.statusUpdate,
                    Store.update, hf, hdep,
                    hs, hr, hkS, hfoo1, hne, Call.isCreate, Call.isUpdate]
                  exact ⟨d.Spec.Replicas, rfl⟩
                | none =>
                  simp [Reconcile, Store.getFoo, Store.getDeployment, Store.statusUpdate,
                    Store.update, hf, hdep,
                    hs, hr, hkS, hfoo1, hne, hdkS, hrepl, Call.isCreate, Call.isUpdate]

/-- The pass in which the fetch of the workload fails with an error other than NotFound
issues no create and no update and leaves the store as it was. -/
theorem reconcile_keeps_unfetched_workload (srt : List Requirement → List Requirement)
    (fl : Faults) (st : Store) (req : NamespacedName) (e : GoError)
    (hget : fl.getDeployment = some e) (he : IsNotFound e = false) :
    (Reconcile srt fl st req).calls.filter Call.isCreate = [] ∧
      (Reconcile srt fl st req).store = st ∧
      (Reconcile srt fl st req).calls.filter Call.isUpdate = [] := by
  obtain ⟨f1, f2, f3, f4, f5, f6⟩ := fl
  simp only at hget
  subst hget
  cases f1 with
  | some e1 => simp [Reconcile, Store.getFoo, Call.isCreate, Call.isUpdate]
  | none =>
    cases hf : lookup Foo.key req st.foos with
    | none => simp [Reconcile, Store.getFoo, hf, Call.isCreate, Call.isUpdate]
    | some foo =>
      simp [Reconcile, Store.getFoo, Store.getDeployment, hf, he, Deployment.zero,
        LabelSelectorAsSelector, Call.isCreate, Call.isUpdate]

/-- Claim C9 as stated fails: the workload `tnf/jack` is stored with a label `extra=1` and
no owner reference, the fetch reports NotFound and the owner asks for 5 replicas.  Reconcile
issues a create, takes the built workload as `found`, and its update replaces the stored
workload by the built specification: the label is lost and an owner reference appears. -/
theorem stale_read_overwrites_workload :
    lookup Deployment.key jackKey staleStore.deployments = some labelledWorkload ∧
      labelledWorkload.ObjectMeta.Labels = [("app", "jack"), ("extra", "1")] ∧
      labelledWorkload.ObjectMeta.OwnerReferences = [] ∧
      (Reconcile stableByKey staleRead staleStore req01).completion =
        .returned Result.zero Option.none ∧
      (Reconcile stableByKey staleRead staleStore req01).calls.filter Call.isCreate =
        [.create (dep (sampleOwner "foo-01" 5))] ∧
      lookup Deployment.key jackKey
          (Reconcile stableByKey staleRead staleStore req01).store.deployments =
        some (withReplicas (dep (sampleOwner "foo-01" 5)) 5) ∧
      (withReplicas (dep (sampleOwner "foo-01" 5)) 5).ObjectMeta.Labels = [("app", "jack")] ∧
      (withReplicas (dep (sampleOwner "foo-01" 5)) 5).ObjectMeta.OwnerReferences ≠ [] := by
  decide

/-- Claim C9, amended: when the workload exists and its fetch does not report NotFound,
whatever the store operations do otherwise, Reconcile issues no create; the workload stored
afterwards equals the stored one in every field except possibly the replica count; and when
its replica count already equals the replica count the stored owner asks for, no workload
update is issued. -/
theorem reconcile_keeps_existing_workload (srt : List Requirement → List Requirement)
    (fl : Faults) (st : Store) (req : NamespacedName) (d : Deployment)
    (hget : fl.getDeployment ≠ some GoError.notFound)
    (hdep : lookup Deployment.key jackKey st.deployments = some d) :
    (Reconcile srt fl st req).calls.filter Call.isCreate = [] ∧
      (∃ n : Option Int,
        lookup Deployment.key jackKey (Reconcile srt fl st req).store.deployments =
          some { d with Spec := { d.Spec with Replicas := n } }) ∧
      (∀ foo : Foo, lookup Foo.key req st.foos = some foo →
        d.Spec.Replicas = some foo.Spec.Replicas →
        (Reconcile srt fl st req).calls.filter Call.isUpdate = []) := by
  cases hf : fl.getDeployment with
  | none => exact reconcile_keeps_fetched_workload srt fl st req d hf hdep
  | some e =>
    have he : IsNotFound e = false := by
      cases e with
      | notFound => exact absurd hf hget
      | alreadyExists => rfl
      | other msg => rfl
    obtain ⟨h1, h2, h3⟩ := reconcile_keeps_unfetched_workload srt fl st req e hf he
    refine ⟨h1, ⟨d.Spec.Replicas, ?_⟩, fun _ _ _ => h3⟩
    rw [h2]
    exact hdep

/-- Claim C9, amended, on a store holding the owner `foo-01` asking for 3 replicas and the
workload `tnf/jack` with 3 replicas. -/
theorem reconcile_keeps_existing_workload_witness :
    Faults.none.getDeployment ≠ some GoError.notFound ∧
      lookup Deployment.key jackKey alignedStore.deployments = some (sampleWorkload 3) ∧
      ((Reconcile stableByKey Faults.none alignedStore req01).calls.filter Call.isCreate = [] ∧
        (∃ n : Option Int,
          lookup Deployment.key jackKey
              (Reconcile stableByKey Faults.none alignedStore req01).store.deployments =
            some { (sampleWorkload 3) with
              Spec := { (sampleWorkload 3).Spec with Replicas := n } }) ∧
        (∀ foo : Foo, lookup Foo.key req01 alignedStore.foos = some foo →
          (sampleWorkload 3).Spec.Replicas = some foo.Spec.Replicas →
          (Reconcile stableByKey Faults.none alignedStore req01).calls.filter Call.isUpdate =
            [])) :=
  ⟨by decide, rfl,
    reconcile_keeps_existing_workload stableByKey Faults.none alignedStore req01
      (sampleWorkload 3) (by decide) rfl⟩

/-! ## Convergence of repeated passes -/

/-- Writing to an owner the status it has changes nothing. -/
theorem withStatus_self (foo : Foo) (sel : Selector) (n : Int)
    (h : foo.Status = { Selector := sel.string, Replicas := n }) : withStatus foo sel n = foo := by
  cases foo
  simp only [withStatus]
  simp only at h
  rw [h]

/-- A pass over a workload whose replica count already is the one the owner asks for only
writes the status of the owner. -/
theorem reconcileStore_of_equal_replicas (srt : List Requirement → List Requirement)
    (st : Store) (req : NamespacedName) (foo : Foo)
    (d : Deployment) (sel : Selector)
    (hfoo : lookup Foo.key req st.foos = some foo)
    (hdep : lookup Deployment.key jackKey st.deployments = some d)
    (hr : d.Spec.Replicas = some foo.Spec.Replicas)
    (hsel : LabelSelectorAsSelector srt d.Spec.Selector = .ok sel) :
    reconcileStore srt req st =
      { foos := replaceFirst Foo.key (withStatus foo sel foo.Spec.Replicas) st.foos,
        deployments := st.deployments } := by
  unfold reconcileStore
  rw [Reconcile_found srt st req foo d foo.Spec.Replicas sel hfoo hdep hr hsel,
    if_neg (not_not.mpr rfl)]

/-- After one pass the stored workload has the replica count the owner asks for. -/
theorem reconcileStore_first (srt : List Requirement → List Requirement)
    (st : Store) (req : NamespacedName) (foo : Foo)
    (hfoo : lookup Foo.key req st.foos = some foo)
    (hw : lookup Deployment.key jackKey st.deployments = Option.none ∨
      ∃ d r sel, lookup Deployment.key jackKey st.deployments = some d ∧
        d.Spec.Replicas = some r ∧ LabelSelectorAsSelector srt d.Spec.Selector = .ok sel) :
    ∃ foo1 d1 sel, lookup Foo.key req (reconcileStore srt req st).foos = some foo1 ∧
      foo1.Spec = foo.Spec ∧
      lookup Deployment.key jackKey (reconcileStore srt req st).deployments = some d1 ∧
      d1.Spec.Replicas = some foo.Spec.Replicas ∧
      LabelSelectorAsSelector srt d1.Spec.Selector = .ok sel := by
  rcases hw with habs | ⟨d, r, sel, hdep, hr, hsel⟩
  · have hfoo1 := lookup_withStatus st req foo hfoo
      { Selector := jackSelector.string, Replicas := 1 }
    have hnew : lookup Deployment.key jackKey (st.deployments ++ [dep foo]) = some (dep foo) := by
      rw [lookup_append_absent Deployment.key jackKey (dep foo) st.deployments habs]
      rfl
    have hcreate : (st.create Faults.none.create (dep foo)).2.deployments =
        st.deployments ++ [dep foo] := by
      have hkey : (dep foo).key = jackKey := rfl
      simp [Store.create, Faults.none, hkey, habs]
    refine ⟨withStatus foo jackSelector 1, withReplicas (dep foo) foo.Spec.Replicas,
      jackSelector, ?_⟩
    unfold reconcileStore
    rw [Reconcile_absent srt Faults.none st req foo rfl rfl rfl rfl hfoo habs, hcreate]
    by_cases hne : (1 : Int) = foo.Spec.Replicas
    · rw [if_neg (not_not.mpr hne)]
      refine ⟨hfoo1, rfl, ?_, rfl, rfl⟩
      rw [← hne]
      exact hnew
    · rw [if_pos hne]
      have hkey : (withReplicas (dep foo) foo.Spec.Replicas).key = jackKey := rfl
      have hrep := lookup_replaceFirst_same Deployment.key
        (withReplicas (dep foo) foo.Spec.Replicas) (dep foo) (st.deployments ++ [dep foo])
        (by rw [hkey]; exact hnew)
      rw [hkey] at hrep
      simp only [Store.update, Faults.none, hkey, hnew]
      exact ⟨hfoo1, rfl, hrep, rfl, rfl⟩
  · have hfoo1 := lookup_withStatus st req foo hfoo { Selector := sel.string, Replicas := r }
    have hdk : d.key = jackKey := lookup_key Deployment.key jackKey d st.deployments hdep
    unfold reconcileStore
    rw [Reconcile_found srt st req foo d r sel hfoo hdep hr hsel]
    by_cases hne : r = foo.Spec.Replicas
    · rw [if_neg (not_not.mpr hne)]
      exact ⟨withStatus foo sel r, d, sel, hfoo1, rfl, hdep, by rw [hr, hne], hsel⟩
    · rw [if_pos hne]
      have hkey : (withReplicas d foo.Spec.Replicas).key = jackKey := hdk
      have hrep := lookup_replaceFirst_same Deployment.key
        (withReplicas d foo.Spec.Replicas) d st.deployments (by rw [hkey]; exact hdep)
      rw [hkey] at hrep
      exact ⟨withStatus foo sel r, withReplicas d foo.Spec.Replicas, sel, hfoo1, rfl, hrep,
        rfl, hsel⟩

/-- Claim C5 as stated fails on stores that hold a workload Reconcile cannot read: with a
workload whose selector is rejected, two passes leave the store as it was, the workload at
3 replicas while the owner asks for 5 and its status says 0; with a workload without a
replica count, the pass panics. -/
theorem no_convergence_on_unreadable_workload :
    reconcileStore stableByKey req01
        (reconcileStore stableByKey req01 rejectedStore) = rejectedStore ∧
      (rejectedWorkload 3).Spec.Replicas = some 3 ∧
      (sampleOwner "foo-01" 5).Spec.Replicas = 5 ∧
      (sampleOwner "foo-01" 5).Status.Replicas = 0 ∧
      (Reconcile stableByKey Faults.none unsizedStore req01).completion = .panicked := by
  decide

/-- Claim C5, amended: for an existing owner and a store in which the workload is absent,
or present with a replica count and a label selector that converts without error, and every
store operation succeeding, after two passes of Reconcile the stored workload has the
replica count the owner asks for, the status of the stored owner reports that count, and
every further pass leaves the store unchanged. -/
theorem reconcile_reaches_fixed_point (srt : List Requirement → List Requirement)
    (st : Store) (req : NamespacedName) (foo : Foo)
    (hfoo : lookup Foo.key req st.foos = some foo)
    (hw : lookup Deployment.key jackKey st.deployments = Option.none ∨
      ∃ d r sel, lookup Deployment.key jackKey st.deployments = some d ∧
        d.Spec.Replicas = some r ∧ LabelSelectorAsSelector srt d.Spec.Selector = .ok sel) :
    ∃ foo2 d2,
      lookup Foo.key req (reconcileStore srt req (reconcileStore srt req st)).foos = some foo2 ∧
      lookup Deployment.key jackKey
        (reconcileStore srt req (reconcileStore srt req st)).deployments = some d2 ∧
      foo2.Spec = foo.Spec ∧
      d2.Spec.Replicas = some foo.Spec.Replicas ∧
      foo2.Status.Replicas = foo.Spec.Replicas ∧
      ∀ n : Nat,
        (reconcileStore srt req)^[n] (reconcileStore srt req (reconcileStore srt req st)) =
          reconcileStore srt req (reconcileStore srt req st) := by
  obtain ⟨foo1, d1, sel, hfoo1, hspec1, hdep1, hr1, hsel1⟩ :=
    reconcileStore_first srt st req foo hfoo hw
  have hr1' : d1.Spec.Replicas = some foo1.Spec.Replicas := by rw [hspec1]; exact hr1
  have h2 := reconcileStore_of_equal_replicas srt (reconcileStore srt req st) req foo1 d1 sel
    hfoo1 hdep1 hr1' hsel1
  have hfoo2 : lookup Foo.key req (reconcileStore srt req (reconcileStore srt req st)).foos =
      some (withStatus foo1 sel foo1.Spec.Replicas) := by
    rw [h2]
    exact lookup_withStatus (reconcileStore srt req st) req foo1 hfoo1 _
  have hdep2 : lookup Deployment.key jackKey
      (reconcileStore srt req (reconcileStore srt req st)).deployments = some d1 := by
    rw [h2]; exact hdep1
  have h3 := reconcileStore_of_equal_replicas srt
    (reconcileStore srt req (reconcileStore srt req st)) req
    (withStatus foo1 sel foo1.Spec.Replicas) d1 sel hfoo2 hdep2 hr1' hsel1
  have hself : withStatus (withStatus foo1 sel foo1.Spec.Replicas) sel
      (withStatus foo1 sel foo1.Spec.Replicas).Spec.Replicas =
      withStatus foo1 sel foo1.Spec.Replicas := rfl
  have hk : (withStatus foo1 sel foo1.Spec.Replicas).key = req :=
    lookup_key Foo.key req _ _ hfoo2
  have hfix : reconcileStore srt req (reconcileStore srt req (reconcileStore srt req st)) =
      reconcileStore srt req (reconcileStore srt req st) := by
    rw [h3, hself, replaceFirst_self Foo.key _ _ (by rw [hk]; exact hfoo2)]
  refine ⟨withStatus foo1 sel foo1.Spec.Replicas, d1, hfoo2, hdep2, hspec1, hr1, ?_, ?_⟩
  · show foo1.Spec.Replicas = foo.Spec.Replicas
    rw [hspec1]
  · intro n
    exact Function.iterate_fixed hfix n

/-- Claim C5, amended, on a store holding the owner `foo-01` asking for 3 replicas and no
workload. -/
theorem reconcile_reaches_fixed_point_witness :
    lookup Foo.key req01 ownerOnlyStore.foos = some (sampleOwner "foo-01" 3) ∧
      (lookup Deployment.key jackKey ownerOnlyStore.deployments = Option.none ∨
        ∃ d r sel, lookup Deployment.key jackKey ownerOnlyStore.deployments = some d ∧
          d.Spec.Replicas = some r ∧
          LabelSelectorAsSelector stableByKey d.Spec.Selector = .ok sel) ∧
      ∃ foo2 d2,
        lookup Foo.key req01
          (reconcileStore stableByKey req01 (reconcileStore stableByKey req01
            ownerOnlyStore)).foos = some foo2 ∧
        lookup Deployment.key jackKey
          (reconcileStore stableByKey req01 (reconcileStore stableByKey req01
            ownerOnlyStore)).deployments = some d2 ∧
        foo2.Spec = (sampleOwner "foo-01" 3).Spec ∧
        d2.Spec.Replicas = some (sampleOwner "foo-01" 3).Spec.Replicas ∧
        foo2.Status.Replicas = (sampleOwner "foo-01" 3).Spec.Replicas ∧
        ∀ n : Nat, (reconcileStore stableByKey req01)^[n]
            (reconcileStore stableByKey req01 (reconcileStore stableByKey req01 ownerOnlyStore)) =
          reconcileStore stableByKey req01 (reconcileStore stableByKey req01 ownerOnlyStore) :=
  ⟨rfl, Or.inl rfl,
    reconcile_reaches_fixed_point stableByKey ownerOnlyStore
      req01 (sampleOwner "foo-01" 3) rfl (Or.inl rfl)⟩

end Controllers
